import Mathlib

/-!
Verification of the webSocket-chat relay server (src/server.js): session
registry, broadcast presence protocol, and the solo-activity bot state
machine.  The server is embedded as a deterministic state machine:
handlers for connect / inbound-message / close / idle-timer events map a
`ServerState` to an updated state plus the list of outbound events, each
paired with the state at the moment of its emission.
-/

set_option maxRecDepth 4000

/-! ## String primitives (JS `trim`, `slice`, `toLowerCase`, `includes`, `endsWith`) -/

/-- The whitespace characters removed by JavaScript `String.prototype.trim`. -/
def jsWhitespaceList : List Char :=
  [' ', '\t', '\n', '\r', Char.ofNat 11, Char.ofNat 12, Char.ofNat 0xA0,
   Char.ofNat 0x1680, Char.ofNat 0x2028, Char.ofNat 0x2029, Char.ofNat 0x202F,
   Char.ofNat 0x205F, Char.ofNat 0x3000, Char.ofNat 0xFEFF]
  ++ (List.range 11).map (fun i => Char.ofNat (0x2000 + i))

def isJsSpace (c : Char) : Bool := jsWhitespaceList.contains c

/-- JavaScript `s.trim()`: strip leading and trailing whitespace. -/
def jsTrim (s : String) : String :=
  ⟨(((s.toList.dropWhile isJsSpace).reverse.dropWhile isJsSpace).reverse)⟩

/-- JavaScript `s.slice(0, n)`: the first `n` characters of `s`. -/
def strTake (s : String) (n : Nat) : String := ⟨s.toList.take n⟩

/-- JavaScript `s.toLowerCase()` (ASCII range, which covers the bot keywords). -/
def jsToLower (s : String) : String := ⟨s.toList.map Char.toLower⟩

/-- Contiguous-substring test on character lists (JS `includes`). -/
def hasSub (pat : List Char) : List Char → Bool
  | [] => pat.isEmpty
  | c :: t => pat.isPrefixOf (c :: t) || hasSub pat t

/-- JavaScript `s.includes(pat)`. -/
def strIncludes (s pat : String) : Bool := hasSub pat.toList s.toList

/-- JavaScript `s.endsWith(t)`. -/
def jsEndsWith (s t : String) : Bool := t.toList.isSuffixOf s.toList

/-! ## Data model -/

/-- A `{id, name}` identity as stored in the `clients` map. -/
structure Session where
  id : Nat
  name : String
deriving DecidableEq, Repr

/-- `const BOT = { id: 0, name: 'BOT-NEON' }`. -/
def BOT : Session := ⟨0, "BOT-NEON"⟩

/--
The server's mutable globals: the `clients` map (insertion-ordered, keyed
by a numeric connection handle standing for the `ws` object), `nextId`,
`botActive`, whether the `botIdleTimer` variable holds a handle, and the
number of interval timers actually running (`liveTimers` counts every
`setInterval` not yet cleared, so a `setInterval` that overwrites a
non-null handle would leave the old timer counted: a leak).
-/
structure ServerState where
  clients : List (Nat × Session)
  nextId : Nat
  botActive : Bool
  botIdleTimer : Bool
  liveTimers : Nat
deriving DecidableEq, Repr

def initialState : ServerState := ⟨[], 1, false, false, 0⟩

/-- `Map.set`: update in place if the key exists, else append (JS `Map` keeps
insertion order and `set` on an existing key keeps its position). -/
def mapSet (m : List (Nat × Session)) (k : Nat) (v : Session) : List (Nat × Session) :=
  if m.any (fun p => p.1 == k) then
    m.map (fun p => if p.1 == k then (k, v) else p)
  else m ++ [(k, v)]

/-- `Map.delete`. -/
def mapDelete (m : List (Nat × Session)) (k : Nat) : List (Nat × Session) :=
  m.filter (fun p => p.1 != k)

/-- `Map.get`. -/
def mapGet (m : List (Nat × Session)) (k : Nat) : Option Session :=
  (m.find? (fun p => p.1 == k)).map Prod.snd

/-- `getOnlineList()`: `Array.from(clients.values()).map(c => ({id, name}))`. -/
def getOnlineList (st : ServerState) : List Session := st.clients.map Prod.snd

/-- `isRealClient`: real users have `id > 0`. -/
def isRealClient (c : Session) : Bool := decide (0 < c.id)

/-- `realClientCount()`. -/
def realClientCount (st : ServerState) : Nat :=
  ((st.clients.map Prod.snd).filter isRealClient).length

/-- `onlineWithBot()`: the Bot first, then the registry sessions. -/
def onlineWithBot (st : ServerState) : List Session := BOT :: getOnlineList st

/-! ## Outbound events -/

/-- The outbound event shapes (`ts` is ignored; it never affects state). -/
inductive OutEvent where
  /-- `{type:'welcome', you, online}` unicast to the new connection. -/
  | welcome (target : Nat) (you : Session) (online : List Session)
  /-- `{type:'presence', action, user, online}`; `exceptTo` records a
  `broadcastExcept` origin. -/
  | presence (action : String) (user : Session) (online : List Session) (exceptTo : Option Nat)
  /-- `{type:'name_set', you, online}` unicast to the renaming client. -/
  | nameSet (target : Nat) (you : Session) (online : List Session)
  /-- `{type:'chat', from, body}`. -/
  | chat (sender : Session) (body : String)
deriving DecidableEq, Repr

/-- Each emitted event is paired with the server state at the moment of
emission, so roster claims can refer to "the state at that instant". -/
abbrev Trace := List (OutEvent × ServerState)

/-- `botPresence(action)`: broadcast a presence event for the Bot identity;
the roster excludes the Bot exactly when the action is `'leave'`. -/
def botPresence (st : ServerState) (action : String) : Trace :=
  [(OutEvent.presence action BOT
      (if action = "leave" then getOnlineList st else onlineWithBot st) none, st)]

/-- `botChat(body)`. -/
def botChat (st : ServerState) (body : String) : Trace :=
  [(OutEvent.chat BOT body, st)]

/-! ## Solo bot state machine -/

/-- `stopBotIfNeeded()`: clear the idle timer if set, then deactivate and
announce the Bot leaving if it was active. -/
def stopBotIfNeeded (st : ServerState) : ServerState × Trace :=
  let st1 := if st.botIdleTimer then
      { st with botIdleTimer := false, liveTimers := st.liveTimers - 1 }
    else st
  if st1.botActive then
    let st2 := { st1 with botActive := false }
    (st2, botPresence st2 "leave")
  else (st1, [])

def introLine : String :=
  "Signal acquired. You\x27re solo. Type /help for commands, or send any message and I’ll respond."

def promptLines : List String :=
  ["Open a second tab to simulate another user joining.",
   "Try: /idea for a next feature suggestion.",
   "Try: /ping",
   "Want rooms next? (e.g., /join general)"]

/-- `startBotIfNeeded()`: activate only when exactly one real user is online
and the Bot is not already active; announce, introduce, start the idle timer. -/
def startBotIfNeeded (st : ServerState) : ServerState × Trace :=
  if realClientCount st ≠ 1 then (st, [])
  else if st.botActive then (st, [])
  else
    let st1 := { st with botActive := true }
    let evs := botPresence st1 "join" ++ botChat st1 introLine
    let st2 := { st1 with botIdleTimer := true, liveTimers := st1.liveTimers + 1 }
    (st2, evs)

def helpLine : String := "Commands: /help, /ping, /about, /idea"

def aboutLine : String :=
  "I\x27m a lightweight in-memory bot (no external API). I activate only when you\x27re the only real user online."

def ideaLine : String :=
  "Next upgrades: rooms + message history (Redis) + typing indicators + basic moderation/rate limiting."

def deployLine : String :=
  "Deploy tip: ensure server listens on process.env.PORT and the client uses wss:// on https:// (your UI already does)."

def bugLine : String :=
  "Paste the exact error text + where it occurs and I’ll pinpoint the fix."

def helloLine : String :=
  "Hello. Your terminal UI is strong. Want me to help write a recruiter-grade README and resume bullet?"

def questionLine : String :=
  "Good question. Give me one more detail (context or constraint) and I’ll answer precisely."

/-- The default reflective echo clips input beyond 140 characters and
appends an ellipsis. -/
def clip140 (t : String) : String :=
  if 140 < t.length then strTake t 140 ++ "…" else t

def ackLine (t : String) : String :=
  "Acknowledged: \"" ++ clip140 t ++ "\" — do you want to iterate on UI, add rooms, or add persistence next?"

/-- `botReply(text)`: trim, drop if empty, then the command/keyword matcher
in source order; every branch emits exactly one `botChat`. -/
def botReplyEvents (st : ServerState) (text : String) : Trace :=
  let t := jsTrim text
  if t = "" then []
  else if t = "/help" then botChat st helpLine
  else if t = "/ping" then botChat st "pong"
  else if t = "/about" then botChat st aboutLine
  else if t = "/idea" then botChat st ideaLine
  else if strIncludes (jsToLower t) "deploy" || strIncludes (jsToLower t) "render" then
    botChat st deployLine
  else if strIncludes (jsToLower t) "bug" || strIncludes (jsToLower t) "error" then
    botChat st bugLine
  else if strIncludes (jsToLower t) "hello" || strIncludes (jsToLower t) "hi" then
    botChat st helloLine
  else if jsEndsWith t "?" then botChat st questionLine
  else botChat st (ackLine t)

/-! ## Connection handlers -/

/-- Inbound frame after `safeJsonParse` and the shape checks, classified the
way the `message` handler discriminates:
`notJson` (parse failure, so `safeJsonParse` returned `null`), `falsyJson`
(parsed to a falsy value: `null`, `0`, `""`, `false`), `truthyNonObject`
(parsed but `typeof !== 'object'`), `otherType` (an object whose `type` is
neither `'set_name'` nor `'chat'`, arrays included), or a recognized
`set_name` / `chat` request (absent or falsy `name`/`body` fields coerce
to `""`, matching `String(x || '')`). -/
inductive Inbound where
  | notJson
  | falsyJson
  | truthyNonObject
  | otherType
  | setName (nm : String)
  | chatMsg (body : String)
deriving DecidableEq, Repr

/-- `wss.on('connection')`: register the session, send `welcome`, tell the
others, then re-evaluate the Bot (stop first, then start). -/
def connectHandler (st : ServerState) : ServerState × Trace :=
  let id := st.nextId
  let client : Session := ⟨id, "user-" ++ toString id⟩
  let st1 : ServerState := { st with clients := mapSet st.clients id client, nextId := id + 1 }
  let welcomeEv : OutEvent × ServerState :=
    (OutEvent.welcome id client
      (if st1.botActive then onlineWithBot st1 else getOnlineList st1), st1)
  let joinEv : OutEvent × ServerState :=
    (OutEvent.presence "join" client
      (if st1.botActive then onlineWithBot st1 else getOnlineList st1) (some id), st1)
  let s2 := stopBotIfNeeded st1
  let s3 := startBotIfNeeded s2.1
  (s3.1, welcomeEv :: joinEv :: (s2.2 ++ s3.2))

/-- `ws.on('message')`: drop anything but a recognized object; `set_name`
renames in place and announces; `chat` relays the trimmed, clipped body and
lets the Bot reply while solo. -/
def messageHandler (st : ServerState) (h : Nat) (frame : Inbound) : ServerState × Trace :=
  match mapGet st.clients h with
  | none => (st, [])
  | some client =>
    match frame with
    | Inbound.setName nm =>
        let desired := jsTrim nm
        let clean := if strTake desired 24 = "" then "user-" ++ toString client.id
          else strTake desired 24
        let client2 : Session := ⟨client.id, clean⟩
        let st1 : ServerState := { st with clients := mapSet st.clients h client2 }
        (st1,
          [(OutEvent.nameSet h client2
              (if st1.botActive then onlineWithBot st1 else getOnlineList st1), st1),
           (OutEvent.presence "rename" client2
              (if st1.botActive then onlineWithBot st1 else getOnlineList st1) none, st1)])
    | Inbound.chatMsg body =>
        let b := jsTrim body
        if b = "" then (st, [])
        else
          let ev1 : OutEvent × ServerState := (OutEvent.chat client (strTake b 2000), st)
          if st.botActive = true ∧ realClientCount st = 1 then
            (st, ev1 :: botReplyEvents st b)
          else (st, [ev1])
    | _ => (st, [])

/-- `ws.on('close')`: delete the session, broadcast `leave` with the
post-removal roster, then re-evaluate the Bot. -/
def closeHandler (st : ServerState) (h : Nat) : ServerState × Trace :=
  match mapGet st.clients h with
  | none => (st, [])
  | some client =>
    let st1 : ServerState := { st with clients := mapDelete st.clients h }
    let leaveEv : OutEvent × ServerState :=
      (OutEvent.presence "leave" client
        (if st1.botActive then onlineWithBot st1 else getOnlineList st1) none, st1)
    let s2 := stopBotIfNeeded st1
    let s3 := startBotIfNeeded s2.1
    (s3.1, leaveEv :: (s2.2 ++ s3.2))

/-- The `setInterval` callback of the idle timer: runs only while the timer
is scheduled; re-checks the solo condition, else emits one rotation prompt
(`k` models the pseudo-random draw). -/
def timerTick (st : ServerState) (k : Nat) : ServerState × Trace :=
  if st.botIdleTimer = false then (st, [])
  else if st.botActive = false then (st, [])
  else if realClientCount st ≠ 1 then stopBotIfNeeded st
  else (st, botChat st (promptLines.getD (k % 4) ""))

/-! ## The event loop -/

/-- The discrete events the single-threaded event loop dispatches. -/
inductive InEvent where
  | connect
  | message (h : Nat) (frame : Inbound)
  | close (h : Nat)
  | tick (k : Nat)
deriving DecidableEq, Repr

def step (st : ServerState) : InEvent → ServerState × Trace
  | InEvent.connect => connectHandler st
  | InEvent.message h f => messageHandler st h f
  | InEvent.close h => closeHandler st h
  | InEvent.tick k => timerTick st k

def runFrom (st : ServerState) : List InEvent → ServerState × Trace
  | [] => (st, [])
  | e :: es =>
    let s1 := step st e
    let s2 := runFrom s1.1 es
    (s2.1, s1.2 ++ s2.2)

/-- Run a whole event sequence from the fresh-process state. -/
def run (es : List InEvent) : ServerState × Trace := runFrom initialState es

/-! ## Specification-side derived notions -/

/-- The roster the spec demands at a given instant: exactly the registered
sessions, with the Bot prepended iff the Bot is active at that instant. -/
def expectedRoster (st : ServerState) : List Session :=
  if st.botActive then BOT :: getOnlineList st else getOnlineList st

/-- The roster field of an event, when it carries one. -/
def rosterOf : OutEvent → Option (List Session)
  | OutEvent.welcome _ _ o => some o
  | OutEvent.presence _ _ o _ => some o
  | OutEvent.nameSet _ _ o => some o
  | OutEvent.chat _ _ => none

/-- Per-event roster correctness: any carried roster equals the expected
roster of the emission-moment state, contains the Bot iff the Bot is active
at that moment, and lists only real sessions besides the Bot; presence
events exclude their subject after `leave` and include it after
`join`/`rename`. -/
def EventOk (p : OutEvent × ServerState) : Prop :=
  (∀ o, rosterOf p.1 = some o →
      o = expectedRoster p.2 ∧ ((BOT ∈ o) ↔ p.2.botActive = true) ∧
      (∀ s ∈ o, s = BOT ∨ 0 < s.id)) ∧
  (∀ a u o x, p.1 = OutEvent.presence a u o x →
      ((a = "leave" → u ∉ o) ∧ ((a = "join" ∨ a = "rename") → u ∈ o)))

/-- Clients-map well-formedness: every entry is keyed by its session id,
ids are positive and below `nextId`, and keys are distinct. -/
def ClientsInv (st : ServerState) : Prop :=
  1 ≤ st.nextId ∧
  (∀ p ∈ st.clients, p.1 = p.2.id ∧ 0 < p.2.id ∧ p.2.id < st.nextId) ∧
  (st.clients.map Prod.fst).Nodup

/-- Timer bookkeeping: the stored handle tracks activity and exactly
`botActive` many interval timers are running. -/
def TimerInv (st : ServerState) : Prop :=
  st.botIdleTimer = st.botActive ∧
  st.liveTimers = (if st.botActive then 1 else 0)

/-- The solo invariant: the Bot is active iff exactly one real session. -/
def BotCountInv (st : ServerState) : Prop :=
  (st.botActive = true) ↔ realClientCount st = 1

def StateInv (st : ServerState) : Prop := BotCountInv st ∧ TimerInv st ∧ ClientsInv st

/-- The session ids handed out during a trace, read off the `welcome`
events (each connection receives exactly one). -/
def assignedIds (tr : Trace) : List Nat :=
  tr.filterMap (fun p => match p.1 with
    | OutEvent.welcome _ you _ => some you.id
    | _ => none)

def connectCount : List InEvent → Nat
  | [] => 0
  | InEvent.connect :: es => connectCount es + 1
  | _ :: es => connectCount es

/-- The state at the boundary after the first `k` dispatched events. -/
def stateAt (es : List InEvent) (k : Nat) : ServerState := (run (List.take k es)).1

/-- Handler `i` performs a Bot activation: inactive at the boundary before
it, active at the boundary after it. -/
def Activates (es : List InEvent) (i : Nat) : Prop :=
  (stateAt es i).botActive = false ∧ (stateAt es (i + 1)).botActive = true

/-- Frames the `message` handler drops silently. -/
def IsMalformed : Inbound → Prop
  | Inbound.notJson => True
  | Inbound.falsyJson => True
  | Inbound.truthyNonObject => True
  | Inbound.otherType => True
  | Inbound.setName _ => False
  | Inbound.chatMsg _ => False

/-- Is this outbound event a chat from the given sender? -/
def chatFrom (c : Session) (p : OutEvent × ServerState) : Bool :=
  match p.1 with
  | OutEvent.chat s _ => decide (s = c)
  | _ => false

/-- The bot's reply rules as the spec words them: an ordered rule list,
each rule a trigger predicate with a response. -/
def botRules : List ((String → Bool) × (String → String)) :=
  [(fun t => t == "/help", fun _ => helpLine),
   (fun t => t == "/ping", fun _ => "pong"),
   (fun t => t == "/about", fun _ => aboutLine),
   (fun t => t == "/idea", fun _ => ideaLine),
   (fun t => strIncludes (jsToLower t) "deploy" || strIncludes (jsToLower t) "render",
     fun _ => deployLine),
   (fun t => strIncludes (jsToLower t) "bug" || strIncludes (jsToLower t) "error",
     fun _ => bugLine),
   (fun t => strIncludes (jsToLower t) "hello" || strIncludes (jsToLower t) "hi",
     fun _ => helloLine),
   (fun t => jsEndsWith t "?", fun _ => questionLine)]

/-- First matching rule wins; the default reflective echo closes the list. -/
def firstMatch : List ((String → Bool) × (String → String)) → String → String
  | [], t => ackLine t
  | r :: rest, t => if r.1 t then r.2 t else firstMatch rest t

/-- The part of `ClientsInv` that roster lemmas need: entries are keyed by
their session id and ids are positive. -/
def GoodClients (st : ServerState) : Prop :=
  ∀ p ∈ st.clients, p.1 = p.2.id ∧ 0 < p.2.id

/-- The state right after the connection handler registers the new session
(used to phrase intermediate-state lemmas about `connectHandler`). -/
def registerState (st : ServerState) : ServerState :=
  { st with
    clients := mapSet st.clients st.nextId ⟨st.nextId, "user-" ++ toString st.nextId⟩,
    nextId := st.nextId + 1 }

/-! ## Map helper lemmas -/

theorem mapSet_snd_mem (m : List (Nat × Session)) (k : Nat) (v : Session) :
    v ∈ (mapSet m k v).map Prod.snd := by
  unfold mapSet
  by_cases hA : m.any (fun p => p.1 == k) = true
  · simp only [hA, if_true]
    rcases List.any_eq_true.mp hA with ⟨p, hp, hpk⟩
    exact List.mem_map.mpr ⟨(k, v), List.mem_map.mpr ⟨p, hp, by simp [hpk]⟩, rfl⟩
  · simp only [hA, if_false, Bool.false_eq_true]
    simp

theorem mem_mapSet (m : List (Nat × Session)) (k : Nat) (v : Session) (p : Nat × Session)
    (hp : p ∈ mapSet m k v) : p = (k, v) ∨ p ∈ m := by
  unfold mapSet at hp
  by_cases hA : m.any (fun q => q.1 == k) = true
  · simp only [hA, if_true] at hp
    rcases List.mem_map.mp hp with ⟨q, hq, hfq⟩
    by_cases hk : (q.1 == k) = true
    · left; rw [← hfq]; simp [hk]
    · right; rw [← hfq]; simpa [hk] using hq
  · simp only [hA, if_false, Bool.false_eq_true] at hp
    rcases List.mem_append.mp hp with h | h
    · right; exact h
    · left; simpa using h

theorem mapSet_inplace_fst (k : Nat) (v : Session) (m : List (Nat × Session)) :
    (m.map (fun p => if p.1 == k then (k, v) else p)).map Prod.fst = m.map Prod.fst := by
  induction m with
  | nil => rfl
  | cons a t ih =>
    have h1 : (if (a.1 == k) = true then (k, v) else a).1 = a.1 := by
      by_cases hk : (a.1 == k) = true
      · have hak : a.1 = k := by simpa using hk
        simp [hk, hak]
      · simp [hk]
    simp only [List.map_cons, h1, ih]

theorem mapGet_cons_pos (a : Nat × Session) (t : List (Nat × Session)) (k : Nat)
    (h : (a.1 == k) = true) : mapGet (a :: t) k = some a.2 := by
  simp only [mapGet, List.find?, h, Option.map_some']

theorem mapGet_cons_neg (a : Nat × Session) (t : List (Nat × Session)) (k : Nat)
    (h : (a.1 == k) = false) : mapGet (a :: t) k = mapGet t k := by
  simp only [mapGet, List.find?, h]

theorem mapGet_mem (k : Nat) (v : Session) :
    ∀ m : List (Nat × Session), mapGet m k = some v → (k, v) ∈ m := by
  intro m
  induction m with
  | nil => intro h; simp [mapGet] at h
  | cons a t ih =>
    intro h
    by_cases hk : (a.1 == k) = true
    · have hak : a.1 = k := by simpa using hk
      have hv : a.2 = v := by
        rw [mapGet_cons_pos a t k hk] at h
        simpa using h
      have hakv : a = (k, v) := by
        cases a
        simp_all
      rw [← hakv]
      exact List.mem_cons_self a t
    · have hkf : (a.1 == k) = false := by
        cases hx : (a.1 == k) <;> simp_all
      have h2 : mapGet t k = some v := by
        rwa [mapGet_cons_neg a t k hkf] at h
      exact List.mem_cons_of_mem _ (ih h2)

theorem mapGet_any (m : List (Nat × Session)) (k : Nat) (v : Session)
    (h : mapGet m k = some v) : m.any (fun p => p.1 == k) = true :=
  List.any_eq_true.mpr ⟨(k, v), mapGet_mem k v m h, by simp⟩

theorem mapGet_inplace (k : Nat) (v : Session) :
    ∀ m : List (Nat × Session), m.any (fun p => p.1 == k) = true →
      mapGet (m.map (fun p => if p.1 == k then (k, v) else p)) k = some v := by
  intro m
  induction m with
  | nil => simp
  | cons a t ih =>
    intro hA
    by_cases hk : (a.1 == k) = true
    · have hae : (if (a.1 == k) = true then (k, v) else a) = (k, v) := by simp [hk]
      simp only [List.map_cons, hae]
      rw [mapGet_cons_pos (k, v) _ k (by simp)]
    · have hae : (if (a.1 == k) = true then (k, v) else a) = a := by simp [hk]
      have hkf : (a.1 == k) = false := by
        cases hx : (a.1 == k) <;> simp_all
      have hT : t.any (fun p => p.1 == k) = true := by
        simpa [List.any_cons, hk] using hA
      simp only [List.map_cons, hae]
      rw [mapGet_cons_neg a _ k hkf]
      exact ih hT

theorem mapGet_append_last (k : Nat) (v : Session) :
    ∀ m : List (Nat × Session), m.any (fun p => p.1 == k) = false →
      mapGet (m ++ [(k, v)]) k = some v := by
  intro m
  induction m with
  | nil => simp [mapGet]
  | cons a t ih =>
    intro hA
    have hk : (a.1 == k) = false := by
      by_contra hc
      have : (a.1 == k) = true := by
        cases h : (a.1 == k) <;> simp_all
      simp [List.any_cons, this] at hA
    have hT : t.any (fun p => p.1 == k) = false := by
      by_contra hc
      have : t.any (fun p => p.1 == k) = true := by
        cases h : t.any (fun p => p.1 == k) <;> simp_all
      simp [List.any_cons, this] at hA
    have := ih hT
    simpa [mapGet, hk] using this

theorem mapGet_set_self (m : List (Nat × Session)) (k : Nat) (v : Session) :
    mapGet (mapSet m k v) k = some v := by
  unfold mapSet
  by_cases hA : m.any (fun p => p.1 == k) = true
  · simp only [hA, if_true]
    exact mapGet_inplace k v m hA
  · rw [if_neg hA]
    exact mapGet_append_last k v m
      (by cases h : m.any (fun p => p.1 == k) <;> simp_all)

theorem mem_mapDelete (m : List (Nat × Session)) (k : Nat) (p : Nat × Session)
    (hp : p ∈ mapDelete m k) : p ∈ m ∧ p.1 ≠ k := by
  unfold mapDelete at hp
  have := List.mem_filter.mp hp
  exact ⟨this.1, by simpa using this.2⟩

theorem mapDelete_fst_sublist (m : List (Nat × Session)) (k : Nat) :
    ((mapDelete m k).map Prod.fst).Sublist (m.map Prod.fst) :=
  (List.filter_sublist m).map Prod.fst

/-! ## Counting lemmas -/

theorem count_inplace_rename (k : Nat) (v : Session) (hv : v.id = k) :
    ∀ m : List (Nat × Session), (∀ p ∈ m, p.1 = p.2.id) →
      (((m.map (fun p => if p.1 == k then (k, v) else p)).map Prod.snd).filter
          isRealClient).length
        = ((m.map Prod.snd).filter isRealClient).length := by
  intro m
  induction m with
  | nil => intro _; rfl
  | cons a t ih =>
    intro hids
    have hts : ∀ p ∈ t, p.1 = p.2.id := fun p hp => hids p (List.mem_cons_of_mem _ hp)
    have iht := ih hts
    by_cases hk : (a.1 == k) = true
    · have hak : a.1 = k := by simpa using hk
      have haid : a.2.id = k := by
        rw [← hak]
        exact (hids a (List.mem_cons_self _ _)).symm
      have hreal : isRealClient v = isRealClient a.2 := by
        simp [isRealClient, hv, haid]
      have hae : (if (a.1 == k) = true then (k, v) else a) = (k, v) := by simp [hk]
      simp only [List.map_cons, hae, List.filter_cons]
      rw [hreal]
      by_cases hr : isRealClient a.2 = true
      · rw [if_pos hr, if_pos hr]
        simp only [List.length_cons, iht]
      · rw [if_neg hr, if_neg hr]
        exact iht
    · have hae : (if (a.1 == k) = true then (k, v) else a) = a := by simp [hk]
      simp only [List.map_cons, hae, List.filter_cons]
      by_cases hr : isRealClient a.2 = true
      · rw [if_pos hr, if_pos hr]
        simp only [List.length_cons, iht]
      · rw [if_neg hr, if_neg hr]
        exact iht

/-- Renaming a registered session in place never changes the real-session
count. -/
theorem realClientCount_rename (st : ServerState) (h : Nat) (client v : Session)
    (hget : mapGet st.clients h = some client)
    (hids : ∀ p ∈ st.clients, p.1 = p.2.id) (hv : v.id = client.id) :
    realClientCount { st with clients := mapSet st.clients h v } = realClientCount st := by
  have hA := mapGet_any st.clients h client hget
  have hch : client.id = h := by
    have := hids (h, client) (mapGet_mem h client st.clients hget)
    simpa using this.symm
  unfold realClientCount
  simp only [mapSet, hA, if_true]
  exact count_inplace_rename h v (by rw [hv, hch]) st.clients hids

/-- A fresh registration adds one real session to the count. -/
theorem realClientCount_register (st : ServerState) (v : Session)
    (hfresh : st.clients.any (fun p => p.1 == v.id) = false) (hreal : 0 < v.id) :
    realClientCount { st with clients := mapSet st.clients v.id v } = realClientCount st + 1 := by
  unfold realClientCount
  simp only [mapSet, hfresh, Bool.false_eq_true, if_false]
  simp [List.filter_append, isRealClient, hreal]

/-! ## Bot machine state lemmas -/

theorem stop_fields (st : ServerState) :
    (stopBotIfNeeded st).1.clients = st.clients ∧
    (stopBotIfNeeded st).1.nextId = st.nextId ∧
    (stopBotIfNeeded st).1.botActive = false ∧
    (stopBotIfNeeded st).1.botIdleTimer = false := by
  unfold stopBotIfNeeded
  by_cases h1 : st.botIdleTimer = true <;> by_cases h2 : st.botActive = true <;>
    simp [h1, h2]

theorem stop_liveTimers (st : ServerState) (ht : TimerInv st) :
    (stopBotIfNeeded st).1.liveTimers = 0 := by
  obtain ⟨h1, h2⟩ := ht
  unfold stopBotIfNeeded
  by_cases hb : st.botActive = true
  · rw [hb] at h1
    simp [h1, h2, hb]
  · have hbf : st.botActive = false := by
      cases hx : st.botActive <;> simp_all
    rw [hbf] at h1
    simp [h1, h2, hbf]

theorem start_fields (st : ServerState) :
    (startBotIfNeeded st).1.clients = st.clients ∧
    (startBotIfNeeded st).1.nextId = st.nextId := by
  unfold startBotIfNeeded
  by_cases h1 : realClientCount st ≠ 1 <;> by_cases h2 : st.botActive = true <;>
    simp [h1, h2]

theorem start_result_solo (st : ServerState) (hb : st.botActive = false)
    (h1 : realClientCount st = 1) :
    (startBotIfNeeded st).1
      = { st with botActive := true, botIdleTimer := true, liveTimers := st.liveTimers + 1 } := by
  unfold startBotIfNeeded
  rw [if_neg (by omega), hb]
  simp

theorem start_result_nonsolo (st : ServerState) (h1 : realClientCount st ≠ 1) :
    startBotIfNeeded st = (st, []) := by
  unfold startBotIfNeeded
  rw [if_pos h1]

/-- Starting from a stopped machine, `startBotIfNeeded` re-establishes the
solo and timer invariants of the (unchanged) client set. -/
theorem start_establishes (st : ServerState) (hb : st.botActive = false)
    (hti : st.botIdleTimer = false) (hlv : st.liveTimers = 0) :
    BotCountInv (startBotIfNeeded st).1 ∧ TimerInv (startBotIfNeeded st).1 := by
  by_cases h1 : realClientCount st = 1
  · rw [start_result_solo st hb h1]
    constructor
    · unfold BotCountInv realClientCount at h1 ⊢
      simpa using h1
    · unfold TimerInv
      simp [hlv]
  · have heq : (startBotIfNeeded st).1 = st := by rw [start_result_nonsolo st h1]
    rw [heq]
    constructor
    · unfold BotCountInv
      rw [hb]
      simp only [Bool.false_eq_true, false_iff]
      exact h1
    · exact ⟨by rw [hti, hb], by rw [hlv, hb]; simp⟩

/-! ## Invariant preservation -/

theorem fresh_key (st : ServerState) (hc : ClientsInv st) :
    st.clients.any (fun p => p.1 == st.nextId) = false := by
  obtain ⟨hn, hkeys, hnd⟩ := hc
  by_contra hcon
  have hA : st.clients.any (fun p => p.1 == st.nextId) = true := by
    cases hx : st.clients.any (fun p => p.1 == st.nextId) <;> simp_all
  rcases List.any_eq_true.mp hA with ⟨p, hp, hpk⟩
  have h1 : p.1 = st.nextId := by simpa using hpk
  obtain ⟨hid, _, hlt⟩ := hkeys p hp
  omega

theorem clientsInv_register (st : ServerState) (nm : String) (hc : ClientsInv st) :
    ClientsInv { st with
      clients := mapSet st.clients st.nextId ⟨st.nextId, nm⟩,
      nextId := st.nextId + 1 } := by
  have hfresh := fresh_key st hc
  obtain ⟨hn, hkeys, hnd⟩ := hc
  refine ⟨by show 1 ≤ st.nextId + 1; omega, ?_, ?_⟩
  · intro p hp
    simp only [mapSet, hfresh, Bool.false_eq_true, if_false] at hp
    rcases List.mem_append.mp hp with hmem | hmem
    · obtain ⟨h1, h2, h3⟩ := hkeys p hmem
      exact ⟨h1, h2, by show p.2.id < st.nextId + 1; omega⟩
    · have hpe : p = (st.nextId, ⟨st.nextId, nm⟩) := by simpa using hmem
      rw [hpe]
      exact ⟨rfl, by show 0 < st.nextId; omega,
        by show st.nextId < st.nextId + 1; omega⟩
  · simp only [mapSet, hfresh, Bool.false_eq_true, if_false, List.map_append]
    rw [List.nodup_append]
    refine ⟨hnd, List.nodup_singleton _, ?_⟩
    intro a ha hb
    have ha2 : a ∈ st.clients.map Prod.fst := ha
    rcases List.mem_map.mp ha2 with ⟨p, hp, hpa⟩
    obtain ⟨h1, _, h3⟩ := hkeys p hp
    have : a = st.nextId := by simpa using hb
    omega

theorem clientsInv_delete (st : ServerState) (h : Nat) (hc : ClientsInv st) :
    ClientsInv { st with clients := mapDelete st.clients h } := by
  obtain ⟨hn, hkeys, hnd⟩ := hc
  refine ⟨hn, ?_, ?_⟩
  · intro p hp
    exact hkeys p (mem_mapDelete st.clients h p hp).1
  · exact (mapDelete_fst_sublist st.clients h).nodup hnd

theorem clientsInv_rename (st : ServerState) (h : Nat) (client : Session) (nm : String)
    (hget : mapGet st.clients h = some client) (hc : ClientsInv st) :
    ClientsInv { st with clients := mapSet st.clients h ⟨client.id, nm⟩ } := by
  obtain ⟨hn, hkeys, hnd⟩ := hc
  have hmem := mapGet_mem h client st.clients hget
  obtain ⟨hch, hcpos, hclt⟩ := hkeys (h, client) hmem
  have hA := mapGet_any st.clients h client hget
  refine ⟨hn, ?_, ?_⟩
  · intro p hp
    rcases mem_mapSet st.clients h ⟨client.id, nm⟩ p hp with hpe | hpm
    · rw [hpe]
      exact ⟨by simpa using hch, by simpa using hcpos, by simpa using hclt⟩
    · exact hkeys p hpm
  · simp only [mapSet, hA, if_true]
    rw [mapSet_inplace_fst]
    exact hnd

/-- The deactivate-then-activate re-evaluation restores the full invariant
from a well-formed client set alone. -/
theorem stateInv_reeval (st : ServerState) (hti : TimerInv st) (hcl : ClientsInv st) :
    StateInv (startBotIfNeeded (stopBotIfNeeded st).1).1 := by
  have hs := stop_fields st
  have hlv := stop_liveTimers st hti
  have hcl2 : ClientsInv (stopBotIfNeeded st).1 := by
    unfold ClientsInv at hcl ⊢
    rw [hs.1, hs.2.1]
    exact hcl
  have hestab := start_establishes (stopBotIfNeeded st).1 hs.2.2.1 hs.2.2.2 hlv
  refine ⟨hestab.1, hestab.2, ?_⟩
  have hf := start_fields (stopBotIfNeeded st).1
  unfold ClientsInv at hcl2 ⊢
  rw [hf.1, hf.2]
  exact hcl2

theorem stateInv_connect (st : ServerState) (hI : StateInv st) :
    StateInv (connectHandler st).1 := by
  obtain ⟨hbc, hti, hcl⟩ := hI
  have hred : (connectHandler st).1
      = (startBotIfNeeded (stopBotIfNeeded
          { st with
            clients := mapSet st.clients st.nextId ⟨st.nextId, "user-" ++ toString st.nextId⟩,
            nextId := st.nextId + 1 }).1).1 := rfl
  rw [hred]
  exact stateInv_reeval _ hti (clientsInv_register st _ hcl)

theorem message_malformed (st : ServerState) (h : Nat) (f : Inbound) (hf : IsMalformed f) :
    messageHandler st h f = (st, []) := by
  unfold messageHandler
  cases hg : mapGet st.clients h with
  | none => rfl
  | some client =>
    cases f with
    | notJson => rfl
    | falsyJson => rfl
    | truthyNonObject => rfl
    | otherType => rfl
    | setName nm => exact absurd hf (by simp [IsMalformed])
    | chatMsg b => exact absurd hf (by simp [IsMalformed])

theorem message_chat_state (st : ServerState) (h : Nat) (body : String) :
    (messageHandler st h (Inbound.chatMsg body)).1 = st := by
  unfold messageHandler
  cases hg : mapGet st.clients h with
  | none => rfl
  | some client =>
    by_cases hb : jsTrim body = ""
    · simp [hb]
    · by_cases hbot : st.botActive = true ∧ realClientCount st = 1
      · simp [hb, hbot]
      · simp [hb, hbot]

theorem stateInv_message (st : ServerState) (h : Nat) (f : Inbound) (hI : StateInv st) :
    StateInv (messageHandler st h f).1 := by
  obtain ⟨hbc, hti, hcl⟩ := hI
  cases f with
  | notJson =>
    rw [message_malformed st h Inbound.notJson (by simp [IsMalformed])]
    exact ⟨hbc, hti, hcl⟩
  | falsyJson =>
    rw [message_malformed st h Inbound.falsyJson (by simp [IsMalformed])]
    exact ⟨hbc, hti, hcl⟩
  | truthyNonObject =>
    rw [message_malformed st h Inbound.truthyNonObject (by simp [IsMalformed])]
    exact ⟨hbc, hti, hcl⟩
  | otherType =>
    rw [message_malformed st h Inbound.otherType (by simp [IsMalformed])]
    exact ⟨hbc, hti, hcl⟩
  | chatMsg body => rw [message_chat_state st h body]; exact ⟨hbc, hti, hcl⟩
  | setName nm =>
    cases hg : mapGet st.clients h with
    | none =>
      have hred : (messageHandler st h (Inbound.setName nm)).1 = st := by
        unfold messageHandler
        rw [hg]
      rw [hred]
      exact ⟨hbc, hti, hcl⟩
    | some client =>
      have hred : (messageHandler st h (Inbound.setName nm)).1
          = { st with clients :=
                mapSet st.clients h (Session.mk client.id
                  (if strTake (jsTrim nm) 24 = "" then "user-" ++ toString client.id
                    else strTake (jsTrim nm) 24)) } := by
        unfold messageHandler
        rw [hg]
      rw [hred]
      refine ⟨?_, hti, clientsInv_rename st h client _ hg hcl⟩
      unfold BotCountInv at hbc ⊢
      rw [realClientCount_rename st h client
        (Session.mk client.id
          (if strTake (jsTrim nm) 24 = "" then "user-" ++ toString client.id
            else strTake (jsTrim nm) 24))
        hg (fun p hp => (hcl.2.1 p hp).1) rfl]
      exact hbc

theorem stateInv_close (st : ServerState) (h : Nat) (hI : StateInv st) :
    StateInv (closeHandler st h).1 := by
  obtain ⟨hbc, hti, hcl⟩ := hI
  unfold closeHandler
  cases hg : mapGet st.clients h with
  | none => exact ⟨hbc, hti, hcl⟩
  | some client => exact stateInv_reeval _ hti (clientsInv_delete st h hcl)

theorem stateInv_tick (st : ServerState) (k : Nat) (hI : StateInv st) :
    StateInv (timerTick st k).1 := by
  obtain ⟨hbc, hti, hcl⟩ := hI
  unfold timerTick
  by_cases h1 : st.botIdleTimer = false
  · simp only [h1, if_pos rfl]
    exact ⟨hbc, hti, hcl⟩
  · rw [if_neg h1]
    by_cases h2 : st.botActive = false
    · rw [if_pos h2]
      exact ⟨hbc, hti, hcl⟩
    · rw [if_neg h2]
      by_cases h3 : realClientCount st ≠ 1
      · rw [if_pos h3]
        have hs := stop_fields st
        have hlv := stop_liveTimers st hti
        refine ⟨?_, ⟨by rw [hs.2.2.1, hs.2.2.2], by rw [hlv, hs.2.2.1]; simp⟩, ?_⟩
        · unfold BotCountInv
          rw [hs.2.2.1]
          have hcc : realClientCount (stopBotIfNeeded st).1 = realClientCount st := by
            unfold realClientCount
            rw [hs.1]
          rw [hcc]
          simp only [Bool.false_eq_true, false_iff]
          exact h3
        · unfold ClientsInv at hcl ⊢
          rw [hs.1, hs.2.1]
          exact hcl
      · rw [if_neg h3]
        exact ⟨hbc, hti, hcl⟩

theorem stateInv_step (st : ServerState) (e : InEvent) (hI : StateInv st) :
    StateInv (step st e).1 := by
  cases e with
  | connect => exact stateInv_connect st hI
  | message h f => exact stateInv_message st h f hI
  | close h => exact stateInv_close st h hI
  | tick k => exact stateInv_tick st k hI

theorem stateInv_initial : StateInv initialState := by
  refine ⟨?_, ⟨rfl, rfl⟩, le_refl 1, ?_, List.nodup_nil⟩
  · unfold BotCountInv realClientCount initialState
    simp
  · intro p hp
    simp [initialState] at hp

theorem stateInv_runFrom (es : List InEvent) :
    ∀ st, StateInv st → StateInv (runFrom st es).1 := by
  induction es with
  | nil => intro st hI; exact hI
  | cons e es ih =>
    intro st hI
    exact ih _ (stateInv_step st e hI)

theorem stateInv_run (es : List InEvent) : StateInv (run es).1 :=
  stateInv_runFrom es initialState stateInv_initial

/-! ## Roster building blocks -/

theorem goodClients_of_inv (st : ServerState) (hI : ClientsInv st) : GoodClients st :=
  fun p hp => ⟨(hI.2.1 p hp).1, (hI.2.1 p hp).2.1⟩

theorem goodClients_eq (st st' : ServerState) (h : st.clients = st'.clients)
    (hg : GoodClients st') : GoodClients st := by
  intro p hp
  apply hg
  rw [← h]
  exact hp

theorem bot_not_online (st : ServerState) (hg : GoodClients st) :
    BOT ∉ getOnlineList st := by
  intro hmem
  rcases List.mem_map.mp hmem with ⟨p, hp, hpe⟩
  have h2 := (hg p hp).2
  rw [hpe] at h2
  simp [BOT] at h2

theorem roster_real (st : ServerState) (hg : GoodClients st) :
    ∀ s ∈ getOnlineList st, 0 < s.id := by
  intro s hs
  rcases List.mem_map.mp hs with ⟨p, hp, hpe⟩
  rw [← hpe]
  exact (hg p hp).2

/-- The roster computed at each emission site agrees with the spec-side
`expectedRoster`, mentions the Bot iff the Bot is active, and contains only
real sessions besides the Bot. -/
theorem snapshot_roster (stS : ServerState) (hg : GoodClients stS) :
    (if stS.botActive then onlineWithBot stS else getOnlineList stS) = expectedRoster stS ∧
    ((BOT ∈ expectedRoster stS) ↔ stS.botActive = true) ∧
    (∀ s ∈ expectedRoster stS, s = BOT ∨ 0 < s.id) := by
  refine ⟨rfl, ?_, ?_⟩
  · unfold expectedRoster
    by_cases hb : stS.botActive = true
    · simp [hb]
    · rw [if_neg hb]
      exact ⟨fun hmem => absurd hmem (bot_not_online stS hg), fun habs => absurd habs hb⟩
  · unfold expectedRoster
    intro s hs
    by_cases hb : stS.botActive = true
    · rw [if_pos hb] at hs
      rcases List.mem_cons.mp hs with hs | hs
      · left; exact hs
      · right; exact roster_real stS hg s hs
    · rw [if_neg hb] at hs
      right; exact roster_real stS hg s hs

/-! ## Per-emitter event correctness -/

theorem eventOk_chat_ev (s : Session) (b : String) (snap : ServerState) :
    EventOk (OutEvent.chat s b, snap) := by
  constructor
  · intro o ho
    simp [rosterOf] at ho
  · intro a u o x hx
    simp at hx

theorem eventOk_welcome_ev (stS : ServerState) (tgt : Nat) (you : Session)
    (hg : GoodClients stS) :
    EventOk (OutEvent.welcome tgt you
      (if stS.botActive then onlineWithBot stS else getOnlineList stS), stS) := by
  obtain ⟨h1, h2, h3⟩ := snapshot_roster stS hg
  constructor
  · intro o ho
    simp only [rosterOf, Option.some.injEq] at ho
    rw [← ho, h1]
    exact ⟨rfl, h2, h3⟩
  · intro a u o x hx
    simp at hx

theorem eventOk_nameSet_ev (stS : ServerState) (tgt : Nat) (you : Session)
    (hg : GoodClients stS) :
    EventOk (OutEvent.nameSet tgt you
      (if stS.botActive then onlineWithBot stS else getOnlineList stS), stS) := by
  obtain ⟨h1, h2, h3⟩ := snapshot_roster stS hg
  constructor
  · intro o ho
    simp only [rosterOf, Option.some.injEq] at ho
    rw [← ho, h1]
    exact ⟨rfl, h2, h3⟩
  · intro a u o x hx
    simp at hx

theorem eventOk_join_real (stS : ServerState) (u : Session) (x : Option Nat)
    (hg : GoodClients stS) (hu : u ∈ getOnlineList stS) :
    EventOk (OutEvent.presence "join" u
      (if stS.botActive then onlineWithBot stS else getOnlineList stS) x, stS) := by
  obtain ⟨h1, h2, h3⟩ := snapshot_roster stS hg
  constructor
  · intro o ho
    simp only [rosterOf, Option.some.injEq] at ho
    rw [← ho, h1]
    exact ⟨rfl, h2, h3⟩
  · intro a u' o x' hx
    injection hx with ha hu' ho hx'
    subst ha; subst hu'; subst ho; subst hx'
    constructor
    · intro habs
      exact absurd habs (by decide)
    · intro _
      by_cases hb : stS.botActive = true
      · rw [if_pos hb]
        exact List.mem_cons_of_mem _ hu
      · rw [if_neg hb]
        exact hu

theorem eventOk_rename_real (stS : ServerState) (u : Session) (x : Option Nat)
    (hg : GoodClients stS) (hu : u ∈ getOnlineList stS) :
    EventOk (OutEvent.presence "rename" u
      (if stS.botActive then onlineWithBot stS else getOnlineList stS) x, stS) := by
  obtain ⟨h1, h2, h3⟩ := snapshot_roster stS hg
  constructor
  · intro o ho
    simp only [rosterOf, Option.some.injEq] at ho
    rw [← ho, h1]
    exact ⟨rfl, h2, h3⟩
  · intro a u' o x' hx
    injection hx with ha hu' ho hx'
    subst ha; subst hu'; subst ho; subst hx'
    constructor
    · intro habs
      exact absurd habs (by decide)
    · intro _
      by_cases hb : stS.botActive = true
      · rw [if_pos hb]
        exact List.mem_cons_of_mem _ hu
      · rw [if_neg hb]
        exact hu

theorem eventOk_leave_real (stS : ServerState) (u : Session) (x : Option Nat)
    (hg : GoodClients stS) (hu : u ∉ getOnlineList stS) (hur : 0 < u.id) :
    EventOk (OutEvent.presence "leave" u
      (if stS.botActive then onlineWithBot stS else getOnlineList stS) x, stS) := by
  obtain ⟨h1, h2, h3⟩ := snapshot_roster stS hg
  constructor
  · intro o ho
    simp only [rosterOf, Option.some.injEq] at ho
    rw [← ho, h1]
    exact ⟨rfl, h2, h3⟩
  · intro a u' o x' hx
    injection hx with ha hu' ho hx'
    subst ha; subst hu'; subst ho; subst hx'
    constructor
    · intro _
      by_cases hb : stS.botActive = true
      · rw [if_pos hb]
        intro hmem
        rcases List.mem_cons.mp hmem with hmem | hmem
        · rw [hmem] at hur
          simp [BOT] at hur
        · exact hu hmem
      · rw [if_neg hb]
        exact hu
    · intro habs
      rcases habs with habs | habs <;> exact absurd habs (by decide)

theorem eventOk_botPresence_join (stS : ServerState) (hb : stS.botActive = true)
    (hg : GoodClients stS) : ∀ p ∈ botPresence stS "join", EventOk p := by
  intro p hp
  simp only [botPresence, List.mem_singleton] at hp
  subst hp
  obtain ⟨h1, h2, h3⟩ := snapshot_roster stS hg
  have hjl : (("join" : String) = "leave") = False := by simp
  constructor
  · intro o ho
    simp only [rosterOf, Option.some.injEq, hjl, if_false] at ho
    have hoe : o = expectedRoster stS := by
      rw [← ho]
      unfold expectedRoster onlineWithBot
      rw [if_pos hb]
    rw [hoe]
    exact ⟨rfl, h2, h3⟩
  · intro a u' o x' hx
    injection hx with ha hu' ho hx'
    subst ha; subst hu'; subst ho; subst hx'
    constructor
    · intro habs
      exact absurd habs (by decide)
    · intro _
      simp only [hjl, if_false]
      unfold onlineWithBot
      exact List.mem_cons_self _ _

theorem eventOk_botPresence_leave (stS : ServerState) (hb : stS.botActive = false)
    (hg : GoodClients stS) : ∀ p ∈ botPresence stS "leave", EventOk p := by
  intro p hp
  simp only [botPresence, List.mem_singleton] at hp
  subst hp
  obtain ⟨h1, h2, h3⟩ := snapshot_roster stS hg
  constructor
  · intro o ho
    simp only [rosterOf, Option.some.injEq, if_pos] at ho
    have hoe : o = expectedRoster stS := by
      rw [← ho]
      unfold expectedRoster
      rw [if_neg (by rw [hb]; exact Bool.false_ne_true)]
    rw [hoe]
    exact ⟨rfl, h2, h3⟩
  · intro a u' o x' hx
    injection hx with ha hu' ho hx'
    subst ha; subst hu'; subst ho; subst hx'
    constructor
    · intro _
      simp only [if_pos]
      exact bot_not_online stS hg
    · intro habs
      rcases habs with habs | habs <;> exact absurd habs (by decide)

/-! ## Events emitted by the bot machine -/

theorem stop_events (st : ServerState) :
    (stopBotIfNeeded st).2 = [] ∨
    ∃ st2, (stopBotIfNeeded st).2 = botPresence st2 "leave" ∧ st2.botActive = false ∧
      st2.clients = st.clients := by
  unfold stopBotIfNeeded
  by_cases h1 : st.botIdleTimer = true <;> by_cases h2 : st.botActive = true
  · right
    refine ⟨⟨st.clients, st.nextId, false, false, st.liveTimers - 1⟩, ?_, rfl, rfl⟩
    simp [h1, h2]
  · left; simp [h1, h2]
  · right
    refine ⟨⟨st.clients, st.nextId, false, st.botIdleTimer, st.liveTimers⟩, ?_, rfl, rfl⟩
    simp [h1, h2]
  · left; simp [h1, h2]

theorem start_events (st : ServerState) :
    (startBotIfNeeded st).2 = [] ∨
    ∃ st1, (startBotIfNeeded st).2 = botPresence st1 "join" ++ botChat st1 introLine ∧
      st1.botActive = true ∧ st1.clients = st.clients := by
  unfold startBotIfNeeded
  by_cases h1 : realClientCount st ≠ 1
  · left; rw [if_pos h1]
  · rw [if_neg h1]
    by_cases h2 : st.botActive = true
    · left; rw [if_pos h2]
    · right
      exact ⟨{ st with botActive := true }, by rw [if_neg h2], rfl, rfl⟩

theorem eventOk_stop (st : ServerState) (hg : GoodClients st) :
    ∀ p ∈ (stopBotIfNeeded st).2, EventOk p := by
  rcases stop_events st with he | ⟨st2, he, hb2, hc2⟩
  · rw [he]; intro p hp; simp at hp
  · rw [he]
    exact eventOk_botPresence_leave st2 hb2 (goodClients_eq st2 st hc2 hg)

theorem eventOk_start (st : ServerState) (hg : GoodClients st) :
    ∀ p ∈ (startBotIfNeeded st).2, EventOk p := by
  rcases start_events st with he | ⟨st1, he, hb1, hc1⟩
  · rw [he]; intro p hp; simp at hp
  · rw [he]
    intro p hp
    rcases List.mem_append.mp hp with hp | hp
    · exact eventOk_botPresence_join st1 hb1 (goodClients_eq st1 st hc1 hg) p hp
    · simp only [botChat, List.mem_singleton] at hp
      subst hp
      exact eventOk_chat_ev _ _ _

theorem botReply_shape (st : ServerState) (text : String) :
    ∀ p ∈ botReplyEvents st text, ∃ b, p = (OutEvent.chat BOT b, st) := by
  intro p hp
  simp only [botReplyEvents] at hp
  repeat' split at hp
  all_goals first
    | (simp only [List.not_mem_nil] at hp)
    | (simp only [botChat, List.mem_singleton] at hp; exact ⟨_, hp⟩)

theorem deleted_not_online (st : ServerState) (h : Nat) (client : Session)
    (hget : mapGet st.clients h = some client) (hg : GoodClients st) :
    client ∉ getOnlineList { st with clients := mapDelete st.clients h } := by
  intro hmem
  rcases List.mem_map.mp hmem with ⟨p, hp, hpe⟩
  obtain ⟨hpm, hpk⟩ := mem_mapDelete st.clients h p hp
  have hch : h = client.id := (hg (h, client) (mapGet_mem h client st.clients hget)).1
  have hpid : p.1 = p.2.id := (hg p hpm).1
  rw [hpe] at hpid
  exact hpk (by omega)

theorem message_setName_eq (st : ServerState) (h : Nat) (nm : String) (client : Session)
    (hgc : mapGet st.clients h = some client) :
    messageHandler st h (Inbound.setName nm)
      = (let clean := if strTake (jsTrim nm) 24 = "" then "user-" ++ toString client.id
            else strTake (jsTrim nm) 24
         let client2 : Session := ⟨client.id, clean⟩
         let st1 : ServerState := { st with clients := mapSet st.clients h client2 }
         (st1,
          [(OutEvent.nameSet h client2
              (if st1.botActive then onlineWithBot st1 else getOnlineList st1), st1),
           (OutEvent.presence "rename" client2
              (if st1.botActive then onlineWithBot st1 else getOnlineList st1) none, st1)])) := by
  unfold messageHandler
  rw [hgc]

/-! ## Handler-level event correctness -/

theorem eventOk_connect (st : ServerState) (hI : StateInv st) :
    ∀ p ∈ (connectHandler st).2, EventOk p := by
  obtain ⟨hbc, hti, hcl⟩ := hI
  have hgR : GoodClients (registerState st) :=
    goodClients_of_inv _ (clientsInv_register st _ hcl)
  intro p hp
  have hp2 : p ∈ ((OutEvent.welcome st.nextId
        (Session.mk st.nextId ("user-" ++ toString st.nextId))
        (if (registerState st).botActive then onlineWithBot (registerState st)
          else getOnlineList (registerState st)), registerState st)
      :: (OutEvent.presence "join" (Session.mk st.nextId ("user-" ++ toString st.nextId))
        (if (registerState st).botActive then onlineWithBot (registerState st)
          else getOnlineList (registerState st)) (some st.nextId), registerState st)
      :: ((stopBotIfNeeded (registerState st)).2
          ++ (startBotIfNeeded (stopBotIfNeeded (registerState st)).1).2)) := hp
  rcases List.mem_cons.mp hp2 with hpe | hp3
  · rw [hpe]
    exact eventOk_welcome_ev _ _ _ hgR
  rcases List.mem_cons.mp hp3 with hpe | hp4
  · rw [hpe]
    exact eventOk_join_real _ _ _ hgR (mapSet_snd_mem _ _ _)
  rcases List.mem_append.mp hp4 with hp5 | hp5
  · exact eventOk_stop _ hgR p hp5
  · exact eventOk_start _ (goodClients_eq _ _ (stop_fields _).1 hgR) p hp5

theorem eventOk_close (st : ServerState) (h : Nat) (hI : StateInv st) :
    ∀ p ∈ (closeHandler st h).2, EventOk p := by
  obtain ⟨hbc, hti, hcl⟩ := hI
  have hg : GoodClients st := goodClients_of_inv st hcl
  intro p hp
  cases hgc : mapGet st.clients h with
  | none =>
    have hred : closeHandler st h = (st, []) := by
      unfold closeHandler
      rw [hgc]
    rw [hred] at hp
    simp at hp
  | some client =>
    have hgD : GoodClients { st with clients := mapDelete st.clients h } :=
      goodClients_of_inv _ (clientsInv_delete st h hcl)
    have hred : (closeHandler st h).2
        = (OutEvent.presence "leave" client
            (if ({ st with clients := mapDelete st.clients h } : ServerState).botActive
              then onlineWithBot { st with clients := mapDelete st.clients h }
              else getOnlineList { st with clients := mapDelete st.clients h }) none,
            ({ st with clients := mapDelete st.clients h } : ServerState))
          :: ((stopBotIfNeeded { st with clients := mapDelete st.clients h }).2
            ++ (startBotIfNeeded
                (stopBotIfNeeded { st with clients := mapDelete st.clients h }).1).2) := by
      unfold closeHandler
      rw [hgc]
    rw [hred] at hp
    rcases List.mem_cons.mp hp with hpe | hp3
    · rw [hpe]
      have hcr : 0 < client.id := (hg (h, client) (mapGet_mem h client st.clients hgc)).2
      exact eventOk_leave_real _ _ _ hgD (deleted_not_online st h client hgc hg) hcr
    rcases List.mem_append.mp hp3 with hp5 | hp5
    · exact eventOk_stop _ hgD p hp5
    · exact eventOk_start _ (goodClients_eq _ _ (stop_fields _).1 hgD) p hp5

theorem eventOk_message (st : ServerState) (h : Nat) (f : Inbound) (hI : StateInv st) :
    ∀ p ∈ (messageHandler st h f).2, EventOk p := by
  obtain ⟨hbc, hti, hcl⟩ := hI
  have hg : GoodClients st := goodClients_of_inv st hcl
  intro p hp
  cases hgc : mapGet st.clients h with
  | none =>
    have hred : messageHandler st h f = (st, []) := by
      unfold messageHandler
      rw [hgc]
    rw [hred] at hp
    simp at hp
  | some client =>
    cases f with
    | notJson =>
      rw [message_malformed st h Inbound.notJson (by simp [IsMalformed])] at hp
      simp at hp
    | falsyJson =>
      rw [message_malformed st h Inbound.falsyJson (by simp [IsMalformed])] at hp
      simp at hp
    | truthyNonObject =>
      rw [message_malformed st h Inbound.truthyNonObject (by simp [IsMalformed])] at hp
      simp at hp
    | otherType =>
      rw [message_malformed st h Inbound.otherType (by simp [IsMalformed])] at hp
      simp at hp
    | setName nm =>
      rw [message_setName_eq st h nm client hgc] at hp
      rcases List.mem_cons.mp hp with hpe | hp3
      · rw [hpe]
        exact eventOk_nameSet_ev _ _ _
          (goodClients_of_inv _ (clientsInv_rename st h client _ hgc hcl))
      · rw [List.mem_singleton.mp hp3]
        exact eventOk_rename_real _ _ _
          (goodClients_of_inv _ (clientsInv_rename st h client _ hgc hcl))
          (mapSet_snd_mem _ _ _)
    | chatMsg body =>
      by_cases hb : jsTrim body = ""
      · have hred : (messageHandler st h (Inbound.chatMsg body)).2 = [] := by
          unfold messageHandler
          rw [hgc]
          simp [hb]
        rw [hred] at hp
        simp at hp
      · by_cases hbot : st.botActive = true ∧ realClientCount st = 1
        · have hred : (messageHandler st h (Inbound.chatMsg body)).2
              = (OutEvent.chat client (strTake (jsTrim body) 2000), st)
                :: botReplyEvents st (jsTrim body) := by
            unfold messageHandler
            rw [hgc]
            simp [hb, hbot]
          rw [hred] at hp
          rcases List.mem_cons.mp hp with hpe | hp3
          · rw [hpe]
            exact eventOk_chat_ev _ _ _
          · rcases botReply_shape st (jsTrim body) p hp3 with ⟨b, hpe⟩
            rw [hpe]
            exact eventOk_chat_ev _ _ _
        · have hred : (messageHandler st h (Inbound.chatMsg body)).2
              = [(OutEvent.chat client (strTake (jsTrim body) 2000), st)] := by
            unfold messageHandler
            rw [hgc]
            simp [hb, hbot]
          rw [hred] at hp
          have hpe : p = _ := List.mem_singleton.mp hp
          rw [hpe]
          exact eventOk_chat_ev _ _ _

theorem eventOk_tick (st : ServerState) (k : Nat) (hI : StateInv st) :
    ∀ p ∈ (timerTick st k).2, EventOk p := by
  obtain ⟨hbc, hti, hcl⟩ := hI
  have hg := goodClients_of_inv st hcl
  intro p hp
  unfold timerTick at hp
  by_cases h1 : st.botIdleTimer = false
  · rw [if_pos h1] at hp; simp at hp
  · rw [if_neg h1] at hp
    by_cases h2 : st.botActive = false
    · rw [if_pos h2] at hp; simp at hp
    · rw [if_neg h2] at hp
      by_cases h3 : realClientCount st ≠ 1
      · rw [if_pos h3] at hp
        exact eventOk_stop st hg p hp
      · rw [if_neg h3] at hp
        simp only [botChat, List.mem_singleton] at hp
        subst hp
        exact eventOk_chat_ev _ _ _

theorem eventOk_step (st : ServerState) (e : InEvent) (hI : StateInv st) :
    ∀ p ∈ (step st e).2, EventOk p := by
  cases e with
  | connect => exact eventOk_connect st hI
  | message h f => exact eventOk_message st h f hI
  | close h => exact eventOk_close st h hI
  | tick k => exact eventOk_tick st k hI

theorem eventOk_runFrom (es : List InEvent) :
    ∀ st, StateInv st → ∀ p ∈ (runFrom st es).2, EventOk p := by
  induction es with
  | nil => intro st _ p hp; simp [runFrom] at hp
  | cons e es ih =>
    intro st hI p hp
    have hp2 : p ∈ (step st e).2 ++ (runFrom (step st e).1 es).2 := hp
    rcases List.mem_append.mp hp2 with hp3 | hp3
    · exact eventOk_step st e hI p hp3
    · exact ih _ (stateInv_step st e hI) p hp3

/-! ## Assigned-id accounting -/

theorem filterMap_none_of_all {α β : Type} (f : α → Option β) :
    ∀ l : List α, (∀ a ∈ l, f a = none) → l.filterMap f = [] := by
  intro l
  induction l with
  | nil => intro _; rfl
  | cons a t ih =>
    intro hall
    rw [List.filterMap_cons, hall a (List.mem_cons_self _ _)]
    exact ih fun x hx => hall x (List.mem_cons_of_mem _ hx)

theorem filter_none_of_all {α : Type} (f : α → Bool) :
    ∀ l : List α, (∀ a ∈ l, f a = false) → l.filter f = [] := by
  intro l
  induction l with
  | nil => intro _; rfl
  | cons a t ih =>
    intro hall
    rw [List.filter_cons, hall a (List.mem_cons_self _ _)]
    simp only [Bool.false_eq_true, if_false]
    exact ih fun x hx => hall x (List.mem_cons_of_mem _ hx)

theorem assignedIds_append (t1 t2 : Trace) :
    assignedIds (t1 ++ t2) = assignedIds t1 ++ assignedIds t2 := by
  unfold assignedIds
  rw [List.filterMap_append]

theorem assignedIds_stop (st : ServerState) :
    assignedIds (stopBotIfNeeded st).2 = [] := by
  rcases stop_events st with he | ⟨st2, he, _, _⟩ <;> rw [he] <;> rfl

theorem assignedIds_start (st : ServerState) :
    assignedIds (startBotIfNeeded st).2 = [] := by
  rcases start_events st with he | ⟨st1, he, _, _⟩
  · rw [he]; rfl
  · rw [he, assignedIds_append]; rfl

theorem assignedIds_botReply (st : ServerState) (text : String) :
    assignedIds (botReplyEvents st text) = [] := by
  apply filterMap_none_of_all
  intro p hp
  rcases botReply_shape st text p hp with ⟨b, hpe⟩
  rw [hpe]

theorem assignedIds_step_connect (st : ServerState) :
    assignedIds (step st InEvent.connect).2 = [st.nextId] := by
  have h1 := assignedIds_stop (registerState st)
  have h2 := assignedIds_start (stopBotIfNeeded (registerState st)).1
  have hred : (step st InEvent.connect).2
      = (OutEvent.welcome st.nextId
          (Session.mk st.nextId ("user-" ++ toString st.nextId))
          (if (registerState st).botActive then onlineWithBot (registerState st)
            else getOnlineList (registerState st)), registerState st)
        :: (OutEvent.presence "join" (Session.mk st.nextId ("user-" ++ toString st.nextId))
          (if (registerState st).botActive then onlineWithBot (registerState st)
            else getOnlineList (registerState st)) (some st.nextId), registerState st)
        :: ((stopBotIfNeeded (registerState st)).2
            ++ (startBotIfNeeded (stopBotIfNeeded (registerState st)).1).2) := rfl
  rw [hred]
  unfold assignedIds at h1 h2 ⊢
  simp only [List.filterMap_cons, List.filterMap_append]
  rw [h1, h2]
  rfl

theorem assignedIds_step_message (st : ServerState) (h : Nat) (f : Inbound) :
    assignedIds (messageHandler st h f).2 = [] := by
  cases hgc : mapGet st.clients h with
  | none =>
    have hred : messageHandler st h f = (st, []) := by
      unfold messageHandler
      rw [hgc]
    rw [hred]
    rfl
  | some client =>
    cases f with
    | notJson => rw [message_malformed st h Inbound.notJson (by simp [IsMalformed])]; rfl
    | falsyJson => rw [message_malformed st h Inbound.falsyJson (by simp [IsMalformed])]; rfl
    | truthyNonObject =>
      rw [message_malformed st h Inbound.truthyNonObject (by simp [IsMalformed])]; rfl
    | otherType => rw [message_malformed st h Inbound.otherType (by simp [IsMalformed])]; rfl
    | setName nm => rw [message_setName_eq st h nm client hgc]; rfl
    | chatMsg body =>
      by_cases hb : jsTrim body = ""
      · have hred : (messageHandler st h (Inbound.chatMsg body)).2 = [] := by
          unfold messageHandler
          rw [hgc]
          simp [hb]
        rw [hred]
        rfl
      · by_cases hbot : st.botActive = true ∧ realClientCount st = 1
        · have hred : (messageHandler st h (Inbound.chatMsg body)).2
              = (OutEvent.chat client (strTake (jsTrim body) 2000), st)
                :: botReplyEvents st (jsTrim body) := by
            unfold messageHandler
            rw [hgc]
            simp [hb, hbot]
          rw [hred]
          unfold assignedIds
          rw [List.filterMap_cons]
          exact assignedIds_botReply st (jsTrim body)
        · have hred : (messageHandler st h (Inbound.chatMsg body)).2
              = [(OutEvent.chat client (strTake (jsTrim body) 2000), st)] := by
            unfold messageHandler
            rw [hgc]
            simp [hb, hbot]
          rw [hred]
          rfl

theorem assignedIds_step_close (st : ServerState) (h : Nat) :
    assignedIds (closeHandler st h).2 = [] := by
  cases hgc : mapGet st.clients h with
  | none =>
    have hred : closeHandler st h = (st, []) := by
      unfold closeHandler
      rw [hgc]
    rw [hred]
    rfl
  | some client =>
    have h1 := assignedIds_stop { st with clients := mapDelete st.clients h }
    have h2 := assignedIds_start
      (stopBotIfNeeded { st with clients := mapDelete st.clients h }).1
    have hred : (closeHandler st h).2
        = (OutEvent.presence "leave" client
            (if ({ st with clients := mapDelete st.clients h } : ServerState).botActive
              then onlineWithBot { st with clients := mapDelete st.clients h }
              else getOnlineList { st with clients := mapDelete st.clients h }) none,
            ({ st with clients := mapDelete st.clients h } : ServerState))
          :: ((stopBotIfNeeded { st with clients := mapDelete st.clients h }).2
            ++ (startBotIfNeeded
                (stopBotIfNeeded { st with clients := mapDelete st.clients h }).1).2) := by
      unfold closeHandler
      rw [hgc]
    rw [hred]
    unfold assignedIds at h1 h2 ⊢
    simp only [List.filterMap_cons, List.filterMap_append]
    rw [h1, h2]
    rfl

theorem assignedIds_step_tick (st : ServerState) (k : Nat) :
    assignedIds (timerTick st k).2 = [] := by
  unfold timerTick
  by_cases h1 : st.botIdleTimer = false
  · rw [if_pos h1]
    rfl
  · rw [if_neg h1]
    by_cases h2 : st.botActive = false
    · rw [if_pos h2]
      rfl
    · rw [if_neg h2]
      by_cases h3 : realClientCount st ≠ 1
      · rw [if_pos h3]
        exact assignedIds_stop st
      · rw [if_neg h3]
        rfl

theorem nextId_connect (st : ServerState) :
    (connectHandler st).1.nextId = st.nextId + 1 := by
  have hred : (connectHandler st).1
      = (startBotIfNeeded (stopBotIfNeeded (registerState st)).1).1 := rfl
  rw [hred, (start_fields _).2, (stop_fields _).2.1]
  rfl

theorem nextId_message (st : ServerState) (h : Nat) (f : Inbound) :
    (messageHandler st h f).1.nextId = st.nextId := by
  cases hgc : mapGet st.clients h with
  | none =>
    have hred : messageHandler st h f = (st, []) := by
      unfold messageHandler
      rw [hgc]
    rw [hred]
  | some client =>
    cases f with
    | notJson => rw [message_malformed st h Inbound.notJson (by simp [IsMalformed])]
    | falsyJson => rw [message_malformed st h Inbound.falsyJson (by simp [IsMalformed])]
    | truthyNonObject =>
      rw [message_malformed st h Inbound.truthyNonObject (by simp [IsMalformed])]
    | otherType => rw [message_malformed st h Inbound.otherType (by simp [IsMalformed])]
    | setName nm => rw [message_setName_eq st h nm client hgc]
    | chatMsg body => rw [message_chat_state st h body]

theorem nextId_close (st : ServerState) (h : Nat) :
    (closeHandler st h).1.nextId = st.nextId := by
  cases hgc : mapGet st.clients h with
  | none =>
    have hred : closeHandler st h = (st, []) := by
      unfold closeHandler
      rw [hgc]
    rw [hred]
  | some client =>
    have hred : (closeHandler st h).1
        = (startBotIfNeeded
            (stopBotIfNeeded { st with clients := mapDelete st.clients h }).1).1 := by
      unfold closeHandler
      rw [hgc]
    rw [hred, (start_fields _).2, (stop_fields _).2.1]

theorem nextId_tick (st : ServerState) (k : Nat) :
    (timerTick st k).1.nextId = st.nextId := by
  unfold timerTick
  by_cases h1 : st.botIdleTimer = false
  · rw [if_pos h1]
  · rw [if_neg h1]
    by_cases h2 : st.botActive = false
    · rw [if_pos h2]
    · rw [if_neg h2]
      by_cases h3 : realClientCount st ≠ 1
      · rw [if_pos h3]
        exact (stop_fields st).2.1
      · rw [if_neg h3]

theorem assigned_runFrom (es : List InEvent) :
    ∀ st : ServerState,
      assignedIds (runFrom st es).2 = List.range' st.nextId (connectCount es) ∧
      (runFrom st es).1.nextId = st.nextId + connectCount es := by
  induction es with
  | nil => intro st; exact ⟨rfl, rfl⟩
  | cons e es ih =>
    intro st
    obtain ⟨ih2, ih1⟩ := ih (step st e).1
    have hstep2 : (runFrom st (e :: es)).2
        = (step st e).2 ++ (runFrom (step st e).1 es).2 := rfl
    have hstep1 : (runFrom st (e :: es)).1 = (runFrom (step st e).1 es).1 := rfl
    cases e with
    | connect =>
      have hnext : (step st InEvent.connect).1.nextId = st.nextId + 1 := nextId_connect st
      constructor
      · rw [hstep2, assignedIds_append, assignedIds_step_connect, ih2, hnext]
        show st.nextId :: List.range' (st.nextId + 1) (connectCount es)
          = List.range' st.nextId (connectCount es + 1)
        rw [List.range'_succ]
      · rw [hstep1, ih1, hnext]
        show st.nextId + 1 + connectCount es = st.nextId + (connectCount es + 1)
        omega
    | message h f =>
      have hnext : (step st (InEvent.message h f)).1.nextId = st.nextId :=
        nextId_message st h f
      have ha : assignedIds (step st (InEvent.message h f)).2 = [] :=
        assignedIds_step_message st h f
      exact ⟨by rw [hstep2, assignedIds_append, ha, ih2, hnext]; rfl,
        by rw [hstep1, ih1, hnext]; rfl⟩
    | close h =>
      have hnext : (step st (InEvent.close h)).1.nextId = st.nextId := nextId_close st h
      have ha : assignedIds (step st (InEvent.close h)).2 = [] :=
        assignedIds_step_close st h
      exact ⟨by rw [hstep2, assignedIds_append, ha, ih2, hnext]; rfl,
        by rw [hstep1, ih1, hnext]; rfl⟩
    | tick k =>
      have hnext : (step st (InEvent.tick k)).1.nextId = st.nextId := nextId_tick st k
      have ha : assignedIds (step st (InEvent.tick k)).2 = [] :=
        assignedIds_step_tick st k
      exact ⟨by rw [hstep2, assignedIds_append, ha, ih2, hnext]; rfl,
        by rw [hstep1, ih1, hnext]; rfl⟩

/-! ## Rename, chat, and bot-reply characterizations -/

theorem strTake_empty_iff (s : String) : strTake s 24 = "" ↔ s = "" := by
  constructor
  · intro hx
    have hdata : s.toList.take 24 = [] := congrArg String.data hx
    have hnil : s.toList = [] := by
      rcases List.take_eq_nil_iff.mp hdata with h24 | hl
      · exact absurd h24 (by omega)
      · exact hl
    apply String.ext
    simpa [String.toList] using hnil
  · intro hx
    rw [hx]
    rfl

/-- The `set_name` handler stores the trimmed, 24-clipped name, falling back
to the default when the trimmed name is empty, and keeps the id. -/
theorem rename_stores (st : ServerState) (h : Nat) (client : Session) (nm : String)
    (hgc : mapGet st.clients h = some client) :
    mapGet (messageHandler st h (Inbound.setName nm)).1.clients h
      = some ⟨client.id, if jsTrim nm = "" then "user-" ++ toString client.id
          else strTake (jsTrim nm) 24⟩ := by
  rw [message_setName_eq st h nm client hgc]
  show mapGet (mapSet st.clients h _) h = _
  rw [mapGet_set_self]
  rw [if_congr (strTake_empty_iff (jsTrim nm)) rfl rfl]

theorem message_chat_empty (st : ServerState) (h : Nat) (body : String) (client : Session)
    (hgc : mapGet st.clients h = some client) (hb : jsTrim body = "") :
    messageHandler st h (Inbound.chatMsg body) = (st, []) := by
  unfold messageHandler
  rw [hgc]
  simp [hb]

theorem message_chat_head (st : ServerState) (h : Nat) (body : String) (client : Session)
    (hgc : mapGet st.clients h = some client) (hb : jsTrim body ≠ "") :
    (messageHandler st h (Inbound.chatMsg body)).2.head?
      = some (OutEvent.chat client (strTake (jsTrim body) 2000), st) := by
  unfold messageHandler
  rw [hgc]
  by_cases hbot : st.botActive = true ∧ realClientCount st = 1 <;> simp [hb, hbot]

theorem message_chat_from_sender (st : ServerState) (h : Nat) (body : String)
    (client : Session) (hgc : mapGet st.clients h = some client) (hb : jsTrim body ≠ "")
    (hcid : 0 < client.id) :
    ((messageHandler st h (Inbound.chatMsg body)).2.filter (chatFrom client)).length = 1 := by
  have hc : chatFrom client (OutEvent.chat client (strTake (jsTrim body) 2000), st) = true := by
    unfold chatFrom
    simp
  have hbotfilter : (botReplyEvents st (jsTrim body)).filter (chatFrom client) = [] := by
    apply filter_none_of_all
    intro p hp
    rcases botReply_shape st (jsTrim body) p hp with ⟨b, hpe⟩
    rw [hpe]
    unfold chatFrom
    apply decide_eq_false
    intro habs
    rw [← habs] at hcid
    simp [BOT] at hcid
  by_cases hbot : st.botActive = true ∧ realClientCount st = 1
  · have hred : (messageHandler st h (Inbound.chatMsg body)).2
        = (OutEvent.chat client (strTake (jsTrim body) 2000), st)
          :: botReplyEvents st (jsTrim body) := by
      unfold messageHandler
      rw [hgc]
      simp [hb, hbot]
    rw [hred, List.filter_cons, hc]
    simp [hbotfilter]
  · have hred : (messageHandler st h (Inbound.chatMsg body)).2
        = [(OutEvent.chat client (strTake (jsTrim body) 2000), st)] := by
      unfold messageHandler
      rw [hgc]
      simp [hb, hbot]
    rw [hred, List.filter_cons, hc]
    rfl

theorem botReply_refines (st : ServerState) (text : String) (ht : jsTrim text ≠ "") :
    botReplyEvents st text = [(OutEvent.chat BOT (firstMatch botRules (jsTrim text)), st)] := by
  simp only [botReplyEvents, botChat]
  rw [if_neg ht]
  simp only [firstMatch, botRules, beq_iff_eq]
  repeat' split <;> try rfl

/-! ## Claims -/

/-- C1: for every sequence of connect, disconnect, rename, chat and timer
events, every outbound event carrying an `online` roster equals exactly the
registered sessions at the moment of emission with the Bot prepended iff
the Bot is active at that moment (so a join event includes the new session,
a leave event excludes the departed session, and a rename event carries the
updated session, the registry mutation having happened before the snapshot). -/
theorem roster_snapshot_ok (es : List InEvent) (p : OutEvent × ServerState)
    (hp : p ∈ (run es).2) : EventOk p :=
  eventOk_runFrom es initialState stateInv_initial p hp

/-- Witness for C1: the welcome event of the first connection, emitted from
the post-registration state, satisfies the roster property. -/
theorem roster_snapshot_ok_witness :
    (OutEvent.welcome 1 ⟨1, "user-1"⟩ [⟨1, "user-1"⟩],
      (⟨[(1, ⟨1, "user-1"⟩)], 2, false, false, 0⟩ : ServerState)) ∈ (run [InEvent.connect]).2
    ∧ EventOk (OutEvent.welcome 1 ⟨1, "user-1"⟩ [⟨1, "user-1"⟩],
        (⟨[(1, ⟨1, "user-1"⟩)], 2, false, false, 0⟩ : ServerState)) :=
  ⟨by decide, roster_snapshot_ok [InEvent.connect] _ (by decide)⟩

/-- C2: after every handler completes, the Bot is active iff the count of
real sessions in the registry is exactly 1 — an invariant of all reachable
handler-boundary states. -/
theorem bot_active_iff_solo (es : List InEvent) :
    ((run es).1.botActive = true) ↔ realClientCount (run es).1 = 1 :=
  (stateInv_run es).1

/-- Witness for C2: after a single connect the Bot is active. -/
theorem bot_active_iff_solo_witness : (run [InEvent.connect]).1.botActive = true :=
  (bot_active_iff_solo [InEvent.connect]).mpr (by decide)

/-- C3: at every reachable handler boundary exactly one interval timer is
live while the Bot is active and zero while it is inactive (and the stored
handle tracks activity), so no timer is ever leaked across
activate/deactivate cycles. -/
theorem idle_timer_inv (es : List InEvent) :
    (run es).1.liveTimers = (if (run es).1.botActive then 1 else 0)
    ∧ (run es).1.botIdleTimer = (run es).1.botActive :=
  ⟨(stateInv_run es).2.1.2, (stateInv_run es).2.1.1⟩

/-- Witness for C3: concretely, after one connect the (active) Bot owns
exactly one timer. -/
theorem idle_timer_inv_witness :
    (run [InEvent.connect]).1.liveTimers
      = (if (run [InEvent.connect]).1.botActive then 1 else 0) :=
  (idle_timer_inv [InEvent.connect]).1

/-- C4: a `set_name` request stores the trimmed name truncated to 24
characters, falling back to `user-<id>` when the trimmed name is empty,
and never changes the session id; in particular `"   Alice   "` trims to
`"Alice"`, all-whitespace trims to empty, and a 26-character name is cut
to its first 24 characters. -/
theorem rename_semantics :
    (∀ (st : ServerState) (h : Nat) (client : Session) (nm : String),
      mapGet st.clients h = some client →
      mapGet (messageHandler st h (Inbound.setName nm)).1.clients h
        = some ⟨client.id, if jsTrim nm = "" then "user-" ++ toString client.id
            else strTake (jsTrim nm) 24⟩)
    ∧ jsTrim "   Alice   " = "Alice"
    ∧ jsTrim "    " = ""
    ∧ strTake (jsTrim "abcdefghijklmnopqrstuvwxyz") 24 = "abcdefghijklmnopqrstuvwx" := by
  refine ⟨rename_stores, by decide, by decide, by decide⟩

/-- Witness for C4: renaming the sole session to `"   Alice   "` stores
`"Alice"` under the same id. -/
theorem rename_semantics_witness :
    mapGet (messageHandler ⟨[(1, ⟨1, "user-1"⟩)], 2, true, true, 1⟩ 1
        (Inbound.setName "   Alice   ")).1.clients 1
      = some ⟨1, if jsTrim "   Alice   " = "" then "user-" ++ toString 1
          else strTake (jsTrim "   Alice   ") 24⟩ :=
  rename_semantics.1 ⟨[(1, ⟨1, "user-1"⟩)], 2, true, true, 1⟩ 1 ⟨1, "user-1"⟩
    "   Alice   " (by decide)

/-- C5 counterexample: with the Bot active and one real session, sending
the deploy-tip text as a chat message broadcasts TWO chat events whose body
equals the trimmed (and 2000-clipped) input — the user relay and the Bot's
keyword reply — refuting "exactly one chat event is broadcast whose body is
the trimmed input truncated to at most 2000 characters". -/
theorem chat_single_event_counterexample :
    ((step (run [InEvent.connect]).1
        (InEvent.message 1 (Inbound.chatMsg deployLine))).2.filter
      (fun p => match p.1 with
        | OutEvent.chat _ b => decide (b = strTake (jsTrim deployLine) 2000)
        | _ => false)).length = 2 := by decide

/-- C5 (amended): an empty/whitespace-only chat body produces no broadcast
and no state change; otherwise the handler leaves the state unchanged and
broadcasts exactly one chat event from the sender, first in the batch, with
the trimmed body truncated to 2000 characters (the Bot, when active in solo
mode, may broadcast an additional reply chat event of its own). -/
theorem chat_relay_amended (st : ServerState) (h : Nat) (client : Session) (body : String)
    (hgc : mapGet st.clients h = some client) (hcid : 0 < client.id) :
    (jsTrim body = "" → messageHandler st h (Inbound.chatMsg body) = (st, []))
    ∧ (messageHandler st h (Inbound.chatMsg body)).1 = st
    ∧ (jsTrim body ≠ "" →
        (messageHandler st h (Inbound.chatMsg body)).2.head?
          = some (OutEvent.chat client (strTake (jsTrim body) 2000), st)
        ∧ ((messageHandler st h (Inbound.chatMsg body)).2.filter (chatFrom client)).length
            = 1) :=
  ⟨fun hb => message_chat_empty st h body client hgc hb,
   message_chat_state st h body,
   fun hb => ⟨message_chat_head st h body client hgc hb,
     message_chat_from_sender st h body client hgc hb hcid⟩⟩

/-- Witness for C5 (amended): a concrete chat leaves the state unchanged. -/
theorem chat_relay_amended_witness :
    (messageHandler ⟨[(1, ⟨1, "user-1"⟩)], 2, true, true, 1⟩ 1
        (Inbound.chatMsg "hi there")).1 = ⟨[(1, ⟨1, "user-1"⟩)], 2, true, true, 1⟩ :=
  (chat_relay_amended ⟨[(1, ⟨1, "user-1"⟩)], 2, true, true, 1⟩ 1 ⟨1, "user-1"⟩ "hi there"
    (by decide) (by decide)).2.1

/-- C6: for every non-empty trimmed chat text the Bot reply dispatcher
emits exactly one reply, the one picked by the first matching rule of the
priority list (exact slash-commands, then case-insensitive keyword
substrings, then trailing `?`, then the reflective echo that clips beyond
140 characters with an ellipsis); in particular `"/ping"` yields exactly
the single Bot chat `"pong"`. -/
theorem bot_reply_first_match :
    (∀ (st : ServerState) (text : String), jsTrim text ≠ "" →
      botReplyEvents st text
        = [(OutEvent.chat BOT (firstMatch botRules (jsTrim text)), st)])
    ∧ (∀ st : ServerState,
        botReplyEvents st "/ping" = [(OutEvent.chat BOT "pong", st)]) := by
  refine ⟨botReply_refines, ?_⟩
  intro st
  have h1 := botReply_refines st "/ping" (by decide)
  have h2 : firstMatch botRules (jsTrim "/ping") = "pong" := by decide
  rw [h1, h2]

/-- Witness for C6: the `/ping` dispatch at a concrete state. -/
theorem bot_reply_first_match_witness :
    jsTrim "/ping" ≠ ""
    ∧ botReplyEvents initialState "/ping"
        = [(OutEvent.chat BOT (firstMatch botRules (jsTrim "/ping")), initialState)] :=
  ⟨by decide, bot_reply_first_match.1 initialState "/ping" (by decide)⟩

/-- C7: a frame that is not valid JSON, parses to a non-object, or is an
object whose type is neither `set_name` nor `chat` is dropped silently: the
handler emits no outbound event and leaves the registry, the id counter and
the Bot state untouched. -/
theorem malformed_silent_drop (st : ServerState) (h : Nat) (f : Inbound)
    (hf : IsMalformed f) : messageHandler st h f = (st, []) :=
  message_malformed st h f hf

/-- Witness for C7: an unparseable frame on a live connection is a no-op. -/
theorem malformed_silent_drop_witness :
    IsMalformed Inbound.notJson
    ∧ messageHandler ⟨[(1, ⟨1, "user-1"⟩)], 2, true, true, 1⟩ 1 Inbound.notJson
        = (⟨[(1, ⟨1, "user-1"⟩)], 2, true, true, 1⟩, []) :=
  ⟨by simp [IsMalformed],
    malformed_silent_drop ⟨[(1, ⟨1, "user-1"⟩)], 2, true, true, 1⟩ 1 Inbound.notJson
      (by simp [IsMalformed])⟩

/-- C8: session ids are handed out as the strictly increasing sequence
1, 2, 3, … (one per connect, never reused during the process lifetime), and
every registered session's id is positive, so the Bot's reserved id 0 never
collides with a real session. -/
theorem ids_monotone (es : List InEvent) :
    assignedIds (run es).2 = List.range' 1 (connectCount es)
    ∧ List.Pairwise (· < ·) (assignedIds (run es).2)
    ∧ (∀ p ∈ (run es).1.clients, 0 < p.2.id ∧ p.2.id ≠ BOT.id) := by
  have h1 : assignedIds (run es).2 = List.range' 1 (connectCount es) :=
    (assigned_runFrom es initialState).1
  refine ⟨h1, ?_, ?_⟩
  · rw [h1]
    exact List.pairwise_lt_range' 1 (connectCount es)
  · intro p hp
    have hk := (stateInv_run es).2.2.2.1 p hp
    refine ⟨hk.2.1, ?_⟩
    have h2 := hk.2.1
    show p.2.id ≠ 0
    omega

/-- Witness for C8: the first connection's session, registered with id 1,
is real and distinct from the Bot. -/
theorem ids_monotone_witness :
    (1, (⟨1, "user-1"⟩ : Session)) ∈ (run [InEvent.connect]).1.clients
    ∧ (0 < (1 : Nat) ∧ (1 : Nat) ≠ BOT.id) :=
  ⟨by decide, (ids_monotone [InEvent.connect]).2.2 (1, ⟨1, "user-1"⟩) (by decide)⟩

/-- C9: once a second real user is present the Bot is never left active at
a handler boundary, and between any two Bot activations there is a handler
boundary at which the solo condition fails — the deactivate-first,
activate-second re-evaluation gives at most one active period per solo
episode. -/
theorem reeval_ordering (es : List InEvent) :
    (2 ≤ realClientCount (run es).1 → (run es).1.botActive = false)
    ∧ (∀ n m, n < m → Activates es n → Activates es m →
        ∃ k, n < k ∧ k ≤ m ∧ realClientCount (stateAt es k) ≠ 1) := by
  constructor
  · intro h2
    cases hx : (run es).1.botActive with
    | false => rfl
    | true =>
      have hc := (stateInv_run es).1.mp hx
      omega
  · intro n m hnm hAn hAm
    refine ⟨m, hnm, le_refl m, ?_⟩
    intro hc1
    have hbt : (run (List.take m es)).1.botActive = true :=
      (stateInv_run (List.take m es)).1.mpr hc1
    have hbf : (run (List.take m es)).1.botActive = false := hAm.1
    rw [hbf] at hbt
    exact Bool.false_ne_true hbt

/-- Witness for C9: connect, connect, disconnect — activations at handlers
0 and 2, with the two-user boundary in between failing the solo condition. -/
theorem reeval_ordering_witness :
    (0 : Nat) < 2
    ∧ Activates [InEvent.connect, InEvent.connect, InEvent.close 2] 0
    ∧ Activates [InEvent.connect, InEvent.connect, InEvent.close 2] 2
    ∧ ∃ k, 0 < k ∧ k ≤ 2 ∧
        realClientCount (stateAt [InEvent.connect, InEvent.connect, InEvent.close 2] k) ≠ 1 :=
  ⟨by decide, ⟨rfl, rfl⟩, ⟨rfl, rfl⟩,
    (reeval_ordering [InEvent.connect, InEvent.connect, InEvent.close 2]).2 0 2
      (by decide) ⟨rfl, rfl⟩ ⟨rfl, rfl⟩⟩

/-- C10: the welcome event is the first event of every connect and its
roster — computed after registration — always contains the freshly created
session; when the Bot is active at that instant, the Bot identity is
prepended at the head of the roster. -/
theorem welcome_contains_self (st : ServerState) :
    ∃ online rest,
      (connectHandler st).2
        = (OutEvent.welcome st.nextId ⟨st.nextId, "user-" ++ toString st.nextId⟩ online,
            registerState st) :: rest
      ∧ (⟨st.nextId, "user-" ++ toString st.nextId⟩ : Session) ∈ online
      ∧ (st.botActive = true → online.head? = some BOT) := by
  refine ⟨(if (registerState st).botActive then onlineWithBot (registerState st)
    else getOnlineList (registerState st)), _, rfl, ?_, ?_⟩
  · by_cases hb : (registerState st).botActive = true
    · rw [if_pos hb]
      exact List.mem_cons_of_mem _ (mapSet_snd_mem _ _ _)
    · rw [if_neg hb]
      exact mapSet_snd_mem _ _ _
  · intro hb
    have hbR : (registerState st).botActive = true := hb
    rw [if_pos hbR]
    rfl

/-- Witness for C10: a second user connecting while the Bot is active gets
a welcome whose roster holds their own fresh session behind the Bot. -/
theorem welcome_contains_self_witness :
    ∃ online rest,
      (connectHandler ⟨[(1, ⟨1, "user-1"⟩)], 2, true, true, 1⟩).2
        = (OutEvent.welcome 2 ⟨2, "user-" ++ toString 2⟩ online,
            registerState ⟨[(1, ⟨1, "user-1"⟩)], 2, true, true, 1⟩) :: rest
      ∧ (⟨2, "user-" ++ toString 2⟩ : Session) ∈ online
      ∧ ((⟨[(1, ⟨1, "user-1"⟩)], 2, true, true, 1⟩ : ServerState).botActive = true →
          online.head? = some BOT) :=
  welcome_contains_self ⟨[(1, ⟨1, "user-1"⟩)], 2, true, true, 1⟩
